import Mathlib

/-!
Shallow embedding of the two command-line tools in `src/pdf-processor/scripts`:
`extract_pages.py` and `get_metadata.py`.  The external PDF capability
(pdfplumber) is modelled as explicit data: an opened document is a list of
pages, and each page operation either returns its value or faults with an
error message (a raised exception).  The process outcome of each tool is a
value of a two-constructor type: success JSON on standard output with exit
code 0, or an error payload on the error stream with exit code 1.
-/

namespace PdfProcessor

/-- The whitespace characters removed by Python `str.strip()` (ASCII range). -/
def pyIsSpace (c : Char) : Bool :=
  c = ' ' || c = '\t' || c = '\n' || c = '\r' || c = '\x0b' || c = '\x0c'

/-- Python `str.strip()` on a character list: drop leading and trailing
whitespace. -/
def pyStripList (cs : List Char) : List Char :=
  ((cs.dropWhile pyIsSpace).reverse.dropWhile pyIsSpace).reverse

/-- Python `str.strip()`. -/
def pyStrip (s : String) : String :=
  String.mk (pyStripList s.data)

/-- Python `str.split(sep)` for a one-character separator, on character
lists.  Splitting always yields at least one (possibly empty) piece. -/
def pySplitList (sep : Char) : List Char → List (List Char)
  | [] => [[]]
  | c :: cs =>
      match pySplitList sep cs with
      | [] => [[c]]
      | h :: t => if c = sep then [] :: h :: t else (c :: h) :: t

/-- Python `s.split(sep)` for a one-character separator. -/
def pySplit (s : String) (sep : Char) : List String :=
  (pySplitList sep s.data).map (fun cs => String.mk cs)

/-- A run of ASCII digits with optional single underscores between digits,
as accepted inside a Python integer literal, accumulating into `acc`. -/
def pyDigitsAux (acc : Nat) : List Char → Option Nat
  | [] => some acc
  | '_' :: c :: cs =>
      if c.isDigit then pyDigitsAux (10 * acc + (c.toNat - 48)) cs else none
  | c :: cs =>
      if c.isDigit then pyDigitsAux (10 * acc + (c.toNat - 48)) cs else none

/-- The digit part of a Python `int()` literal: at least one digit,
underscores only between digits. -/
def pyDigits : List Char → Option Nat
  | c :: cs => if c.isDigit then pyDigitsAux (c.toNat - 48) cs else none
  | [] => none

/-- Python `int(s)` on an already-stripped string: an optional sign followed
by digits (ASCII model of the decimal integer literal).  `none` where Python
raises `ValueError`. -/
def pyInt (s : String) : Option Int :=
  match s.data with
  | '+' :: cs => (pyDigits cs).map (fun n => (n : Int))
  | '-' :: cs => (pyDigits cs).map (fun n => -(n : Int))
  | cs => (pyDigits cs).map (fun n => (n : Int))

/-- Parse each piece of the split list, as the comprehension over
`int(p.strip())` does; the first failing piece aborts the whole
comprehension with `ValueError`. -/
def parseEntries : List String → Option (List Int)
  | [] => some []
  | p :: ps =>
      match pyInt (pyStrip p), parseEntries ps with
      | some n, some ns => some (n :: ns)
      | _, _ => none

/-- The page-number parse in `main` of extract_pages.py: split the raw
string on commas, strip each piece and read it as a Python integer; `none`
models the caught `ValueError`. -/
def parsePageNumbers (s : String) : Option (List Int) :=
  parseEntries (pySplit s ',')

/-- A table cell as returned by `page.extract_tables()`: possibly missing. -/
abbrev Cell := Option String

/-- A detected table: ordered rows of ordered cells. -/
abbrev Table := List (List Cell)

/-- One page of an opened document, as the external PDF capability exposes
it.  Each operation either returns its value (`extract_text` may return
`None`, `extract_tables` may return `None`) or faults with a raised
exception, modelled as `Except.error`. -/
structure Page where
  extract_text : Except String (Option String)
  extract_tables : Except String (Option (List Table))

/-- An opened PDF document: its ordered sequence of pages. -/
structure PDF where
  pages : List Page

/-- One entry of the success JSON of extract_pages.py. -/
structure PageResult where
  pageNum : Int
  text : String
  tables : List (List (List String))
deriving Repr, DecidableEq

/-- Cell normalization from `extract_page`: a missing cell becomes the
empty string, a present cell is stripped of surrounding whitespace. -/
def normalizeCell (cell : Cell) : String :=
  pyStrip (cell.getD "")

/-- The per-table normalization loop of `extract_page`. -/
def normalizeTable (table : Table) : List (List String) :=
  table.map (fun row => row.map normalizeCell)

/-- Model of `extract_page(page, page_num)`: text (empty if missing), then
tables (empty list if missing), cells normalized; any library fault
propagates. -/
def extract_page (page : Page) (page_num : Int) : Except String PageResult :=
  match page.extract_text with
  | .error e => .error e
  | .ok textOpt =>
      match page.extract_tables with
      | .error e => .error e
      | .ok tablesOpt =>
          .ok { pageNum := page_num
              , text := textOpt.getD ""
              , tables := (tablesOpt.getD []).map normalizeTable }

/-- The placeholder text for an out-of-range page request, as formatted by
the f-string in `main` of extract_pages.py. -/
def outOfRangeNotice (page_num : Int) (total_pages : Nat) : String :=
  "[Page " ++ toString page_num ++ " out of range — PDF has " ++
    toString total_pages ++ " pages]"

/-- One iteration of the extraction loop of `main`: a placeholder result for
an out-of-range index, otherwise the library extraction of that page. -/
def extractOne (pdf : PDF) (page_num : Int) : Except String PageResult :=
  if h : page_num < 0 ∨ (pdf.pages.length : Int) ≤ page_num then
    .ok { pageNum := page_num
        , text := outOfRangeNotice page_num pdf.pages.length
        , tables := [] }
  else
    extract_page (pdf.pages.get ⟨page_num.toNat, by omega⟩) page_num

/-- The loop over `requested_pages` in `main` of extract_pages.py: results
are accumulated in request order; the first extraction fault propagates and
all results accumulated so far are discarded. -/
def extract_loop (pdf : PDF) : List Int → Except String (List PageResult)
  | [] => .ok []
  | p :: rest =>
      match extractOne pdf p with
      | .error e => .error e
      | .ok r =>
          match extract_loop pdf rest with
          | .error e => .error e
          | .ok rs => .ok (r :: rs)

/-- The JSON error payload written to the error stream. -/
structure ErrorResult where
  error : String
deriving Repr, DecidableEq

/-- The observable outcome of one run of extract_pages.py: exactly one of a
success JSON (the `pages` array) on standard output with exit code 0, or an
error payload on the error stream with exit code 1. -/
inductive ExtractOutcome where
  | success (pages : List PageResult)
  | failure (err : ErrorResult)
deriving Repr, DecidableEq

/-- Model of `main()` in extract_pages.py, with `sys.argv` and the
PDF-opening capability as explicit inputs.  Argument-count check,
page-number parsing (before any file access), then open, loop, output. -/
def extract_pages_main (openPdf : String → Except String PDF) :
    List String → ExtractOutcome
  | _prog :: pdf_path :: page_numbers_str :: _rest =>
      match parsePageNumbers page_numbers_str with
      | none => .failure ⟨"Invalid page numbers: " ++ page_numbers_str⟩
      | some requested_pages =>
          match openPdf pdf_path with
          | .error e => .failure ⟨e⟩
          | .ok pdf =>
              match extract_loop pdf requested_pages with
              | .error e => .failure ⟨e⟩
              | .ok results => .success results
  | _ => .failure ⟨"Usage: extract_pages.py <pdf_path> <page_numbers>"⟩

/-- The success JSON of get_metadata.py. -/
structure MetadataResult where
  pageCount : Nat
  fileSize : Nat
  firstPageText : String
deriving Repr, DecidableEq

/-- The filesystem and PDF capability consumed by get_metadata.py:
`os.path.isfile`, `os.path.getsize` and `pdfplumber.open`. -/
structure FileSystem where
  isfile : String → Bool
  getsize : String → Except String Nat
  openPdf : String → Except String PDF

/-- Model of `get_metadata(pdf_path)`: file size from disk, page count, and
the text of the first page (empty for a zero-page document or when
`extract_text` returns nothing). -/
def get_metadata (fs : FileSystem) (pdf_path : String) :
    Except String MetadataResult :=
  match fs.getsize pdf_path with
  | .error e => .error e
  | .ok file_size =>
      match fs.openPdf pdf_path with
      | .error e => .error e
      | .ok pdf =>
          match pdf.pages with
          | [] =>
              .ok { pageCount := 0, fileSize := file_size, firstPageText := "" }
          | pg :: rest =>
              match pg.extract_text with
              | .error e => .error e
              | .ok text =>
                  .ok { pageCount := rest.length + 1
                      , fileSize := file_size
                      , firstPageText := text.getD "" }

/-- The observable outcome of one run of get_metadata.py: a success JSON on
standard output with exit code 0, or a plain-text message on the error
stream with exit code 1. -/
inductive MetaOutcome where
  | success (meta : MetadataResult)
  | failure (msg : String)
deriving Repr, DecidableEq

/-- Model of `main()` in get_metadata.py: argument-count check, the
`os.path.isfile` check, then `get_metadata` under the top-level exception
handler. -/
def get_metadata_main (fs : FileSystem) (argv : List String) : MetaOutcome :=
  match argv with
  | [_prog, pdf_path] =>
      if fs.isfile pdf_path then
        match get_metadata fs pdf_path with
        | .ok m => .success m
        | .error e => .failure ("Error extracting metadata: " ++ e)
      else
        .failure ("Error: file not found: " ++ pdf_path)
  | _ => .failure ("Usage: " ++ argv.headD "" ++ " <path_to_pdf>")

/-- Re-wrap an already-normalized table as present cells, to feed it back
into cell normalization. -/
def asCells (t : List (List String)) : Table :=
  t.map (fun row => row.map some)

/-- A sample page whose library operations all succeed. -/
def pageA : Page :=
  { extract_text := .ok (some "hello")
  , extract_tables := .ok (some [[[some " a ", none]]]) }

/-- A sample one-page document. -/
def pdfA : PDF := { pages := [pageA] }

/-- A capability that opens every path as `pdfA`. -/
def openA : String → Except String PDF := fun _ => .ok pdfA

/-- A sample page whose text extraction faults. -/
def pageBoom : Page :=
  { extract_text := .error "boom", extract_tables := .ok none }

/-- A sample one-page document whose extraction faults. -/
def pdfB : PDF := { pages := [pageBoom] }

/-- A capability that opens every path as `pdfB`. -/
def openB : String → Except String PDF := fun _ => .ok pdfB

/-- A filesystem on which no path is a regular file. -/
def fsMissing : FileSystem :=
  { isfile := fun _ => false
  , getsize := fun _ => .error "missing"
  , openPdf := fun _ => .error "missing" }

/-- A filesystem on which every path is a 1234-byte copy of `pdfA`. -/
def fsA : FileSystem :=
  { isfile := fun _ => true
  , getsize := fun _ => .ok 1234
  , openPdf := fun _ => .ok pdfA }

theorem length_dropWhile_le (p : α → Bool) (l : List α) :
    (l.dropWhile p).length ≤ l.length := by
  induction l with
  | nil => simp [List.dropWhile]
  | cons a l ih =>
      cases hp : p a
      · rw [List.dropWhile_cons_of_neg (by simp [hp])]
      · rw [List.dropWhile_cons_of_pos hp]
        exact Nat.le_succ_of_le ih

theorem dropWhile_idem (p : α → Bool) (l : List α) :
    (l.dropWhile p).dropWhile p = l.dropWhile p := by
  induction l with
  | nil => rfl
  | cons a l ih =>
      cases hp : p a
      · rw [List.dropWhile_cons_of_neg (by simp [hp]),
            List.dropWhile_cons_of_neg (by simp [hp])]
      · rw [List.dropWhile_cons_of_pos hp]
        exact ih

theorem dropWhile_rstrip (p : α → Bool) (l : List α) (hl : l.dropWhile p = l) :
    ((l.reverse.dropWhile p).reverse).dropWhile p = (l.reverse.dropWhile p).reverse := by
  rcases hRr : (l.reverse.dropWhile p).reverse with _ | ⟨a, A⟩
  · rfl
  · have h1 := List.takeWhile_append_dropWhile (p := p) (l := l.reverse)
    have h2 := congrArg List.reverse h1
    rw [List.reverse_append, List.reverse_reverse] at h2
    rw [hRr] at h2
    rw [← h2] at hl
    have hpa : p a = false := by
      cases hpa2 : p a
      · rfl
      · exfalso
        rw [List.cons_append, List.dropWhile_cons_of_pos hpa2] at hl
        have hlen := congrArg List.length hl
        simp only [List.length_cons] at hlen
        have hle := length_dropWhile_le p (A ++ (l.reverse.takeWhile p).reverse)
        omega
    rw [List.dropWhile_cons_of_neg (by simp [hpa])]

theorem pyStripList_idem (cs : List Char) :
    pyStripList (pyStripList cs) = pyStripList cs := by
  have hA : (pyStripList cs).dropWhile pyIsSpace = pyStripList cs :=
    dropWhile_rstrip pyIsSpace (cs.dropWhile pyIsSpace) (dropWhile_idem _ _)
  have hB : ((pyStripList cs).reverse).dropWhile pyIsSpace = (pyStripList cs).reverse := by
    unfold pyStripList
    rw [List.reverse_reverse]
    exact dropWhile_idem _ _
  calc pyStripList (pyStripList cs)
      = (((pyStripList cs).dropWhile pyIsSpace).reverse.dropWhile pyIsSpace).reverse := rfl
    _ = (((pyStripList cs)).reverse.dropWhile pyIsSpace).reverse := by rw [hA]
    _ = ((pyStripList cs).reverse).reverse := by rw [hB]
    _ = pyStripList cs := List.reverse_reverse _

theorem pyStrip_idem (s : String) : pyStrip (pyStrip s) = pyStrip s :=
  congrArg String.mk (pyStripList_idem s.data)

theorem pySplitList_ne_nil (sep : Char) (cs : List Char) :
    pySplitList sep cs ≠ [] := by
  cases cs with
  | nil => simp [pySplitList]
  | cons c cs =>
      simp only [pySplitList]
      rcases h : pySplitList sep cs with _ | ⟨hd, tl⟩
      · simp
      · show ¬(if c = sep then [] :: hd :: tl else (c :: hd) :: tl) = []
        split <;> simp

theorem pySplit_ne_nil (s : String) (sep : Char) : pySplit s sep ≠ [] := by
  unfold pySplit
  simp [pySplitList_ne_nil]

theorem parseEntries_length :
    ∀ (l : List String) (r : List Int), parseEntries l = some r → r.length = l.length := by
  intro l
  induction l with
  | nil =>
      intro r h
      simp [parseEntries] at h
      simp [← h]
  | cons p ps ih =>
      intro r h
      simp only [parseEntries] at h
      rcases h1 : pyInt (pyStrip p) with _ | n <;> rw [h1] at h
      · simp at h
      · rcases h2 : parseEntries ps with _ | ns <;> rw [h2] at h
        · simp at h
        · simp at h
          rw [← h]
          simp [ih ns h2]

theorem extract_page_eq (page : Page) (n : Int) (t : Option String)
    (tb : Option (List Table))
    (ht : page.extract_text = .ok t) (htb : page.extract_tables = .ok tb) :
    extract_page page n =
      .ok { pageNum := n, text := t.getD ""
          , tables := (tb.getD []).map normalizeTable } := by
  unfold extract_page
  rw [ht, htb]

theorem extract_page_pageNum (page : Page) (n : Int) (r : PageResult)
    (h : extract_page page n = .ok r) : r.pageNum = n := by
  unfold extract_page at h
  rcases h1 : page.extract_text with e | t <;> rw [h1] at h
  · simp at h
  · rcases h2 : page.extract_tables with e | tb <;> rw [h2] at h
    · simp at h
    · simp at h
      rw [← h]

theorem extractOne_out (pdf : PDF) (p : Int)
    (h : p < 0 ∨ (pdf.pages.length : Int) ≤ p) :
    extractOne pdf p =
      .ok { pageNum := p, text := outOfRangeNotice p pdf.pages.length
          , tables := [] } := by
  unfold extractOne
  rw [dif_pos h]

theorem extractOne_in (pdf : PDF) (p : Int) (h0 : 0 ≤ p)
    (h1 : p < (pdf.pages.length : Int)) (hb : p.toNat < pdf.pages.length) :
    extractOne pdf p = extract_page (pdf.pages.get ⟨p.toNat, hb⟩) p := by
  unfold extractOne
  rw [dif_neg (by omega)]

theorem extractOne_pageNum (pdf : PDF) (p : Int) (r : PageResult)
    (h : extractOne pdf p = .ok r) : r.pageNum = p := by
  unfold extractOne at h
  split at h
  · simp at h
    rw [← h]
  · exact extract_page_pageNum _ _ _ h

theorem extractOne_ok (pdf : PDF) (p : Int)
    (hok : ∀ pg ∈ pdf.pages,
      (∃ t, pg.extract_text = .ok t) ∧ (∃ tb, pg.extract_tables = .ok tb)) :
    ∃ r, extractOne pdf p = .ok r := by
  unfold extractOne
  split
  · exact ⟨_, rfl⟩
  · have hmem : pdf.pages.get ⟨p.toNat, by omega⟩ ∈ pdf.pages := List.get_mem _ _ _
    obtain ⟨⟨t, ht⟩, tb, htb⟩ := hok _ hmem
    exact ⟨_, extract_page_eq _ _ _ _ ht htb⟩

theorem extract_loop_ok (pdf : PDF) :
    ∀ reqs : List Int, (∀ p ∈ reqs, ∃ r, extractOne pdf p = .ok r) →
    ∃ rs, extract_loop pdf reqs = .ok rs ∧ rs.length = reqs.length ∧
      ∀ i (hi : i < reqs.length) (hj : i < rs.length),
        extractOne pdf (reqs.get ⟨i, hi⟩) = .ok (rs.get ⟨i, hj⟩) := by
  intro reqs
  induction reqs with
  | nil =>
      intro _
      exact ⟨[], rfl, rfl, fun i hi _ => absurd hi (Nat.not_lt_zero i)⟩
  | cons p ps ih =>
      intro h
      obtain ⟨r, hr⟩ := h p (List.mem_cons_self _ _)
      obtain ⟨rs, hrs, hlen, hidx⟩ := ih (fun q hq => h q (List.mem_cons_of_mem _ hq))
      refine ⟨r :: rs, ?_, by simp [hlen], ?_⟩
      · simp only [extract_loop]
        rw [hr, hrs]
      · intro i hi hj
        cases i with
        | zero => exact hr
        | succ k => exact hidx k (Nat.lt_of_succ_lt_succ hi) (Nat.lt_of_succ_lt_succ hj)

theorem extract_loop_length (pdf : PDF) :
    ∀ (l : List Int) (rs : List PageResult),
      extract_loop pdf l = .ok rs → rs.length = l.length := by
  intro l
  induction l with
  | nil =>
      intro rs h
      simp only [extract_loop] at h
      simp at h
      simp [← h]
  | cons p ps ih =>
      intro rs h
      simp only [extract_loop] at h
      rcases h1 : extractOne pdf p with e | r <;> rw [h1] at h
      · simp at h
      · rcases h2 : extract_loop pdf ps with e | rs2 <;> rw [h2] at h
        · simp at h
        · simp at h
          rw [← h]
          simp [ih rs2 h2]

theorem extract_main_success (openPdf : String → Except String PDF)
    (prog path pns : String) (rest : List String) (pdf : PDF) (reqs : List Int)
    (hopen : openPdf path = .ok pdf)
    (hparse : parsePageNumbers pns = some reqs)
    (hok : ∀ pg ∈ pdf.pages,
      (∃ t, pg.extract_text = .ok t) ∧ (∃ tb, pg.extract_tables = .ok tb)) :
    ∃ rs, extract_pages_main openPdf (prog :: path :: pns :: rest) = .success rs ∧
      rs.length = reqs.length ∧
      ∀ i (hi : i < reqs.length) (hj : i < rs.length),
        extractOne pdf (reqs.get ⟨i, hi⟩) = .ok (rs.get ⟨i, hj⟩) := by
  obtain ⟨rs, hrs, hlen, hidx⟩ :=
    extract_loop_ok pdf reqs (fun p _ => extractOne_ok pdf p hok)
  refine ⟨rs, ?_, hlen, hidx⟩
  simp [extract_pages_main, hparse, hopen, hrs]

/-- C1: for a page-number list whose entries all parse as integers and all
lie inside `[0, pageCount)`, the tool succeeds with exactly one `PageResult`
per requested index, in request order, each occurrence of an index (also a
duplicated one) carrying the extraction of that page. -/
theorem C1_one_result_per_index_in_order
    (openPdf : String → Except String PDF) (prog path pns : String)
    (rest : List String) (pdf : PDF) (reqs : List Int)
    (hopen : openPdf path = .ok pdf)
    (hparse : parsePageNumbers pns = some reqs)
    (hrange : ∀ p ∈ reqs, 0 ≤ p ∧ p < (pdf.pages.length : Int))
    (hok : ∀ pg ∈ pdf.pages,
      (∃ t, pg.extract_text = .ok t) ∧ (∃ tb, pg.extract_tables = .ok tb)) :
    ∃ rs, extract_pages_main openPdf (prog :: path :: pns :: rest) = .success rs ∧
      rs.length = reqs.length ∧
      ∀ i (hi : i < reqs.length) (hj : i < rs.length),
        (rs.get ⟨i, hj⟩).pageNum = reqs.get ⟨i, hi⟩ ∧
        extractOne pdf (reqs.get ⟨i, hi⟩) = .ok (rs.get ⟨i, hj⟩) ∧
        ∀ hb : (reqs.get ⟨i, hi⟩).toNat < pdf.pages.length,
          extract_page (pdf.pages.get ⟨(reqs.get ⟨i, hi⟩).toNat, hb⟩)
            (reqs.get ⟨i, hi⟩) = .ok (rs.get ⟨i, hj⟩) := by
  obtain ⟨rs, hmain, hlen, hidx⟩ :=
    extract_main_success openPdf prog path pns rest pdf reqs hopen hparse hok
  refine ⟨rs, hmain, hlen, ?_⟩
  intro i hi hj
  have hx := hidx i hi hj
  refine ⟨extractOne_pageNum _ _ _ hx, hx, ?_⟩
  intro hb
  have hr := hrange (reqs.get ⟨i, hi⟩) (List.get_mem _ _ _)
  rw [← extractOne_in pdf _ hr.1 hr.2 hb]
  exact hx

/-- C1 witness: requesting `"0,0"` on a one-page document. -/
theorem C1_one_result_per_index_in_order_witness :
    ∃ rs, extract_pages_main openA ["extract_pages.py", "doc.pdf", "0,0"] = .success rs ∧
      rs.length = ([0, 0] : List Int).length ∧
      ∀ i (hi : i < ([0, 0] : List Int).length) (hj : i < rs.length),
        (rs.get ⟨i, hj⟩).pageNum = ([0, 0] : List Int).get ⟨i, hi⟩ ∧
        extractOne pdfA (([0, 0] : List Int).get ⟨i, hi⟩) = .ok (rs.get ⟨i, hj⟩) ∧
        ∀ hb : (([0, 0] : List Int).get ⟨i, hi⟩).toNat < pdfA.pages.length,
          extract_page (pdfA.pages.get ⟨(([0, 0] : List Int).get ⟨i, hi⟩).toNat, hb⟩)
            (([0, 0] : List Int).get ⟨i, hi⟩) = .ok (rs.get ⟨i, hj⟩) :=
  C1_one_result_per_index_in_order openA "extract_pages.py" "doc.pdf" "0,0" []
    pdfA [0, 0] rfl (by decide) (by decide)
    (by
      intro pg hpg
      have hpa : pg = pageA := by simpa [pdfA] using hpg
      rw [hpa]
      exact ⟨⟨some "hello", rfl⟩, ⟨some [[[some " a ", none]]], rfl⟩⟩)

/-- C2: an out-of-range requested index does not fail the run: its result is
the placeholder whose text is the out-of-range notice naming that exact
index and the true page count, with empty tables, and the run still
succeeds (exit 0). -/
theorem C2_out_of_range_placeholder
    (openPdf : String → Except String PDF) (prog path pns : String)
    (rest : List String) (pdf : PDF) (reqs : List Int)
    (hopen : openPdf path = .ok pdf)
    (hparse : parsePageNumbers pns = some reqs)
    (hok : ∀ pg ∈ pdf.pages,
      (∃ t, pg.extract_text = .ok t) ∧ (∃ tb, pg.extract_tables = .ok tb)) :
    ∃ rs, extract_pages_main openPdf (prog :: path :: pns :: rest) = .success rs ∧
      rs.length = reqs.length ∧
      ∀ i (hi : i < reqs.length) (hj : i < rs.length),
        (reqs.get ⟨i, hi⟩ < 0 ∨ (pdf.pages.length : Int) ≤ reqs.get ⟨i, hi⟩) →
        rs.get ⟨i, hj⟩ =
          { pageNum := reqs.get ⟨i, hi⟩
          , text := outOfRangeNotice (reqs.get ⟨i, hi⟩) pdf.pages.length
          , tables := [] } ∧
        ∃ pre mid post,
          outOfRangeNotice (reqs.get ⟨i, hi⟩) pdf.pages.length =
            pre ++ toString (reqs.get ⟨i, hi⟩) ++ mid ++
              toString pdf.pages.length ++ post := by
  obtain ⟨rs, hmain, hlen, hidx⟩ :=
    extract_main_success openPdf prog path pns rest pdf reqs hopen hparse hok
  refine ⟨rs, hmain, hlen, ?_⟩
  intro i hi hj hout
  have hx := hidx i hi hj
  rw [extractOne_out pdf _ hout] at hx
  simp only [Except.ok.injEq] at hx
  exact ⟨hx.symm, "[Page ", " out of range — PDF has ", " pages]", rfl⟩

/-- C2 witness: requesting page `5` of a one-page document. -/
theorem C2_out_of_range_placeholder_witness :
    ∃ rs, extract_pages_main openA ["extract_pages.py", "doc.pdf", "5"] = .success rs ∧
      rs.length = ([5] : List Int).length ∧
      ∀ i (hi : i < ([5] : List Int).length) (hj : i < rs.length),
        (([5] : List Int).get ⟨i, hi⟩ < 0 ∨
          (pdfA.pages.length : Int) ≤ ([5] : List Int).get ⟨i, hi⟩) →
        rs.get ⟨i, hj⟩ =
          { pageNum := ([5] : List Int).get ⟨i, hi⟩
          , text := outOfRangeNotice (([5] : List Int).get ⟨i, hi⟩) pdfA.pages.length
          , tables := [] } ∧
        ∃ pre mid post,
          outOfRangeNotice (([5] : List Int).get ⟨i, hi⟩) pdfA.pages.length =
            pre ++ toString (([5] : List Int).get ⟨i, hi⟩) ++ mid ++
              toString pdfA.pages.length ++ post :=
  C2_out_of_range_placeholder openA "extract_pages.py" "doc.pdf" "5" []
    pdfA [5] rfl (by decide)
    (by
      intro pg hpg
      have hpa : pg = pageA := by simpa [pdfA] using hpg
      rw [hpa]
      exact ⟨⟨some "hello", rfl⟩, ⟨some [[[some " a ", none]]], rfl⟩⟩)

/-- C3: each tool's run has exactly one outcome — success JSON on standard
output with exit 0 or an error on the error stream with exit 1, never both —
and an extraction fault mid-request turns the whole run into a failure,
discarding every partial per-page result. -/
theorem C3_single_outcome_all_or_nothing :
    (∀ (openPdf : String → Except String PDF) (argv : List String),
      (∃ rs, extract_pages_main openPdf argv = .success rs) ↔
        ¬ ∃ e, extract_pages_main openPdf argv = .failure e) ∧
    (∀ (fs : FileSystem) (argv : List String),
      (∃ m, get_metadata_main fs argv = .success m) ↔
        ¬ ∃ msg, get_metadata_main fs argv = .failure msg) ∧
    (∀ (openPdf : String → Except String PDF) (prog path pns : String)
      (rest : List String) (pdf : PDF) (reqs : List Int) (e : String),
      openPdf path = .ok pdf → parsePageNumbers pns = some reqs →
      extract_loop pdf reqs = .error e →
      extract_pages_main openPdf (prog :: path :: pns :: rest) = .failure ⟨e⟩) := by
  refine ⟨?_, ?_, ?_⟩
  · intro openPdf argv
    cases h : extract_pages_main openPdf argv with
    | success rs => simp [h]
    | failure e => simp [h]
  · intro fs argv
    cases h : get_metadata_main fs argv with
    | success m => simp [h]
    | failure msg => simp [h]
  · intro openPdf prog path pns rest pdf reqs e hopen hparse hloop
    simp [extract_pages_main, hparse, hopen, hloop]

/-- C3 witness: a faulting page mid-request makes the whole run fail. -/
theorem C3_single_outcome_all_or_nothing_witness :
    extract_pages_main openB ["extract_pages.py", "doc.pdf", "0"] = .failure ⟨"boom"⟩ :=
  C3_single_outcome_all_or_nothing.2.2 openB "extract_pages.py" "doc.pdf" "0" []
    pdfB [0] "boom" rfl (by decide) (by rfl)

/-- C4: for an in-range page, cell normalization maps a missing cell to the
empty string and strips a present cell, and preserves the number and order
of tables, of rows within each table, and of cells within each row. -/
theorem C4_cell_normalization (page : Page) (page_num : Int)
    (t : Option String) (raw : List Table)
    (ht : page.extract_text = .ok t)
    (htb : page.extract_tables = .ok (some raw)) :
    ∃ r, extract_page page page_num = .ok r ∧
      r.tables = raw.map normalizeTable ∧
      (∀ tb : Table, normalizeTable tb = tb.map (fun row => row.map normalizeCell)) ∧
      normalizeCell none = "" ∧
      (∀ s, normalizeCell (some s) = pyStrip s) ∧
      r.tables.length = raw.length ∧
      (∀ i (h1 : i < raw.length) (h2 : i < r.tables.length),
        r.tables.get ⟨i, h2⟩ = normalizeTable (raw.get ⟨i, h1⟩)) ∧
      (∀ tb : Table, (normalizeTable tb).length = tb.length) ∧
      (∀ (tb : Table) i (h1 : i < tb.length) (h2 : i < (normalizeTable tb).length),
        (normalizeTable tb).get ⟨i, h2⟩ = (tb.get ⟨i, h1⟩).map normalizeCell) ∧
      (∀ row : List Cell, (row.map normalizeCell).length = row.length) := by
  refine ⟨_, extract_page_eq page page_num t (some raw) ht htb,
    rfl, fun tb => rfl, rfl, fun s => rfl, by simp, ?_, ?_, ?_, by simp⟩
  · intro i h1 h2
    simp [List.get_eq_getElem, List.getElem_map]
  · intro tb
    simp [normalizeTable]
  · intro tb i h1 h2
    simp [normalizeTable, List.get_eq_getElem, List.getElem_map]

/-- C4 witness: a concrete page with one table containing a padded cell and
a missing cell. -/
theorem C4_cell_normalization_witness :
    ∃ r, extract_page pageA 0 = .ok r ∧
      r.tables = ([[[some " a ", none]]] : List Table).map normalizeTable ∧
      (∀ tb : Table, normalizeTable tb = tb.map (fun row => row.map normalizeCell)) ∧
      normalizeCell none = "" ∧
      (∀ s, normalizeCell (some s) = pyStrip s) ∧
      r.tables.length = ([[[some " a ", none]]] : List Table).length ∧
      (∀ i (h1 : i < ([[[some " a ", none]]] : List Table).length)
         (h2 : i < r.tables.length),
        r.tables.get ⟨i, h2⟩ =
          normalizeTable (([[[some " a ", none]]] : List Table).get ⟨i, h1⟩)) ∧
      (∀ tb : Table, (normalizeTable tb).length = tb.length) ∧
      (∀ (tb : Table) i (h1 : i < tb.length) (h2 : i < (normalizeTable tb).length),
        (normalizeTable tb).get ⟨i, h2⟩ = (tb.get ⟨i, h1⟩).map normalizeCell) ∧
      (∀ row : List Cell, (row.map normalizeCell).length = row.length) :=
  C4_cell_normalization pageA 0 (some "hello") [[[some " a ", none]]] (by rfl) (by rfl)

/-- C5: table-cell normalization is idempotent: re-normalizing any
normalized table changes nothing, and a table whose cells are already
present and free of surrounding whitespace is left identical. -/
theorem C5_normalization_idempotent :
    (∀ raw : List Table,
      (raw.map normalizeTable).map (fun t => normalizeTable (asCells t)) =
        raw.map normalizeTable) ∧
    (∀ t : List (List String), (∀ row ∈ t, ∀ s ∈ row, pyStrip s = s) →
      normalizeTable (asCells t) = t) := by
  constructor
  · intro raw
    rw [List.map_map]
    apply List.map_congr_left
    intro tb _
    show normalizeTable (asCells (normalizeTable tb)) = normalizeTable tb
    simp only [normalizeTable, asCells, List.map_map]
    apply List.map_congr_left
    intro row _
    show List.map normalizeCell (List.map some (List.map normalizeCell row)) =
      List.map normalizeCell row
    simp only [List.map_map]
    apply List.map_congr_left
    intro c _
    show normalizeCell (some (normalizeCell c)) = normalizeCell c
    exact pyStrip_idem _
  · intro t h
    simp only [normalizeTable, asCells, List.map_map]
    conv_rhs => rw [← List.map_id t]
    apply List.map_congr_left
    intro row hrow
    show List.map normalizeCell (List.map some row) = id row
    simp only [List.map_map, id]
    conv_rhs => rw [← List.map_id row]
    apply List.map_congr_left
    intro s hs
    show pyStrip s = s
    exact h row hrow s hs

/-- C5 witness: a concrete already-normalized table is left unchanged. -/
theorem C5_normalization_idempotent_witness :
    normalizeTable (asCells [["a", ""], ["b c"]]) = [["a", ""], ["b c"]] :=
  C5_normalization_idempotent.2 [["a", ""], ["b c"]] (by decide)

/-- C6: a page-numbers string with an entry that does not parse as an
integer fails the run with the error payload naming the raw string, for
every PDF capability alike (so before any file is opened). -/
theorem C6_invalid_page_numbers (openPdf : String → Except String PDF)
    (prog path pns : String) (rest : List String)
    (h : parsePageNumbers pns = none) :
    extract_pages_main openPdf (prog :: path :: pns :: rest) =
      .failure ⟨"Invalid page numbers: " ++ pns⟩ ∧
    (∃ pre, "Invalid page numbers: " ++ pns = pre ++ pns) ∧
    ∀ openPdf2 : String → Except String PDF,
      extract_pages_main openPdf2 (prog :: path :: pns :: rest) =
        extract_pages_main openPdf (prog :: path :: pns :: rest) := by
  have h1 : ∀ o : String → Except String PDF,
      extract_pages_main o (prog :: path :: pns :: rest) =
        .failure ⟨"Invalid page numbers: " ++ pns⟩ := by
    intro o
    simp [extract_pages_main, h]
  refine ⟨h1 openPdf, ⟨"Invalid page numbers: ", rfl⟩, ?_⟩
  intro o2
  rw [h1 o2, h1 openPdf]

/-- C6 witness: the malformed list `"a,b"`. -/
theorem C6_invalid_page_numbers_witness :
    extract_pages_main openA ["extract_pages.py", "doc.pdf", "a,b"] =
      .failure ⟨"Invalid page numbers: " ++ "a,b"⟩ ∧
    (∃ pre, "Invalid page numbers: " ++ "a,b" = pre ++ "a,b") ∧
    ∀ openPdf2 : String → Except String PDF,
      extract_pages_main openPdf2 ["extract_pages.py", "doc.pdf", "a,b"] =
        extract_pages_main openA ["extract_pages.py", "doc.pdf", "a,b"] :=
  C6_invalid_page_numbers openA "extract_pages.py" "doc.pdf" "a,b" [] (by decide)

/-- C7: a path that is not an existing regular file makes the metadata tool
fail with the file-not-found message naming the path, whatever the rest of
the filesystem capability does (so no PDF-open attempt). -/
theorem C7_file_not_found (fs : FileSystem) (prog path : String)
    (h : fs.isfile path = false) :
    get_metadata_main fs [prog, path] =
      .failure ("Error: file not found: " ++ path) ∧
    ∀ fs2 : FileSystem, fs2.isfile path = false →
      get_metadata_main fs2 [prog, path] = get_metadata_main fs [prog, path] := by
  have h1 : ∀ g : FileSystem, g.isfile path = false →
      get_metadata_main g [prog, path] =
        .failure ("Error: file not found: " ++ path) := by
    intro g hg
    simp [get_metadata_main, hg]
  refine ⟨h1 fs h, ?_⟩
  intro fs2 h2
  rw [h1 fs2 h2, h1 fs h]

/-- C7 witness: a filesystem with no regular files. -/
theorem C7_file_not_found_witness :
    get_metadata_main fsMissing ["get_metadata.py", "absent.pdf"] =
      .failure ("Error: file not found: " ++ "absent.pdf") ∧
    ∀ fs2 : FileSystem, fs2.isfile "absent.pdf" = false →
      get_metadata_main fs2 ["get_metadata.py", "absent.pdf"] =
        get_metadata_main fsMissing ["get_metadata.py", "absent.pdf"] :=
  C7_file_not_found fsMissing "get_metadata.py" "absent.pdf" rfl

/-- C8: on success the metadata tool reports the on-disk byte size, the
document's page count, and a first-page text that is the empty string
(present, not absent) exactly when the document has no pages or first-page
extraction yields nothing. -/
theorem C8_metadata_values (fs : FileSystem) (prog path : String) (n : Nat)
    (pdf : PDF)
    (hf : fs.isfile path = true)
    (hs : fs.getsize path = .ok n)
    (ho : fs.openPdf path = .ok pdf) :
    (pdf.pages = [] →
      get_metadata_main fs [prog, path] =
        .success { pageCount := 0, fileSize := n, firstPageText := "" }) ∧
    (∀ pg rest t, pdf.pages = pg :: rest → pg.extract_text = .ok t →
      get_metadata_main fs [prog, path] =
        .success { pageCount := rest.length + 1, fileSize := n
                 , firstPageText := t.getD "" } ∧
      (t.getD "" = "" ↔ (t = none ∨ t = some ""))) := by
  constructor
  · intro hp
    simp [get_metadata_main, hf, get_metadata, hs, ho, hp]
  · intro pg rest t hp ht
    constructor
    · simp [get_metadata_main, hf, get_metadata, hs, ho, hp, ht]
    · cases t with
      | none => simp
      | some s => simp

/-- C8 witness: a 1234-byte one-page document with first-page text. -/
theorem C8_metadata_values_witness :
    (pdfA.pages = [] →
      get_metadata_main fsA ["get_metadata.py", "doc.pdf"] =
        .success { pageCount := 0, fileSize := 1234, firstPageText := "" }) ∧
    (∀ pg rest t, pdfA.pages = pg :: rest → pg.extract_text = .ok t →
      get_metadata_main fsA ["get_metadata.py", "doc.pdf"] =
        .success { pageCount := rest.length + 1, fileSize := 1234
                 , firstPageText := t.getD "" } ∧
      (t.getD "" = "" ↔ (t = none ∨ t = some ""))) :=
  C8_metadata_values fsA "get_metadata.py" "doc.pdf" 1234 pdfA rfl rfl rfl

/-- C9 counterexample: the extraction tool called with three operands (one
more than documented) emits no usage diagnostic and succeeds with exit 0. -/
theorem C9_counterexample_extra_argument :
    extract_pages_main openA ["extract_pages.py", "doc.pdf", "0", "extra"] =
      .success [{ pageNum := 0, text := "hello", tables := [[["a", ""]]] }] ∧
    extract_pages_main openA ["extract_pages.py", "doc.pdf", "0", "extra"] ≠
      .failure ⟨"Usage: extract_pages.py <pdf_path> <page_numbers>"⟩ := by
  decide

/-- C9 amended: the metadata tool rejects any argument count other than one
operand with its usage diagnostic, and the extraction tool rejects fewer
than two operands with its usage diagnostic, in both cases for every
capability alike (before any I/O); extra operands are ignored. -/
theorem C9_usage_errors :
    (∀ (openPdf : String → Except String PDF) (argv : List String),
      argv.length < 3 →
      extract_pages_main openPdf argv =
        .failure ⟨"Usage: extract_pages.py <pdf_path> <page_numbers>"⟩) ∧
    (∀ (fs : FileSystem) (argv : List String), argv.length ≠ 2 →
      get_metadata_main fs argv =
        .failure ("Usage: " ++ argv.headD "" ++ " <path_to_pdf>")) := by
  constructor
  · intro openPdf argv h
    rcases argv with _ | ⟨a, _ | ⟨b, _ | ⟨c, t⟩⟩⟩
    · rfl
    · rfl
    · rfl
    · exfalso
      simp [List.length_cons] at h
      omega
  · intro fs argv h
    rcases argv with _ | ⟨a, _ | ⟨b, _ | ⟨c, t⟩⟩⟩
    · rfl
    · rfl
    · exact absurd rfl h
    · rfl

/-- C9 witness: the metadata tool invoked with no operands at all. -/
theorem C9_usage_errors_witness :
    get_metadata_main fsMissing ["get_metadata.py"] =
      .failure ("Usage: " ++ (["get_metadata.py"] : List String).headD "" ++
        " <path_to_pdf>") :=
  C9_usage_errors.2 fsMissing ["get_metadata.py"] (by decide)

/-- C10: splitting on commas always yields at least one entry, an
all-whitespace entry never parses as an integer, and hence every successful
run of the extraction tool outputs a non-empty pages array. -/
theorem C10_success_nonempty :
    (∀ s : String, pySplit s ',' ≠ []) ∧
    (∀ s : String, s.data.all pyIsSpace → pyInt (pyStrip s) = none) ∧
    (∀ (openPdf : String → Except String PDF) (argv : List String)
      (rs : List PageResult),
      extract_pages_main openPdf argv = .success rs → rs ≠ []) := by
  refine ⟨fun s => pySplit_ne_nil s ',', ?_, ?_⟩
  · intro s hs
    have hnil : pyStripList s.data = [] := by
      unfold pyStripList
      have hd : s.data.dropWhile pyIsSpace = [] := by
        rw [List.dropWhile_eq_nil_iff]
        intro x hx
        exact List.all_eq_true.mp hs x hx
      rw [hd]
      rfl
    show pyInt (String.mk (pyStripList s.data)) = none
    rw [hnil]
    rfl
  · intro openPdf argv rs h
    rcases argv with _ | ⟨a, _ | ⟨b, _ | ⟨c, t⟩⟩⟩
    · simp [extract_pages_main] at h
    · simp [extract_pages_main] at h
    · simp [extract_pages_main] at h
    · simp only [extract_pages_main] at h
      split at h
      · simp at h
      · split at h
        · simp at h
        · split at h
          · simp at h
          · rename_i pdf2 ho2 rs2 hl
            rename_i reqs hp pdf ho
            simp only [ExtractOutcome.success.injEq] at h
            subst h
            intro hnil
            have h1 : rs2.length = reqs.length := extract_loop_length _ reqs rs2 hl
            have h2 : reqs.length = (pySplit c ',').length :=
              parseEntries_length _ _ hp
            have h3 := pySplit_ne_nil c ','
            apply h3
            apply List.length_eq_zero.mp
            rw [← h2, ← h1, hnil]
            rfl

/-- C10 witness: a successful single-page run has a non-empty pages array. -/
theorem C10_success_nonempty_witness :
    ([{ pageNum := 0, text := "hello", tables := [[["a", ""]]] }] :
      List PageResult) ≠ [] :=
  C10_success_nonempty.2.2 openA ["extract_pages.py", "doc.pdf", "0"]
    [{ pageNum := 0, text := "hello", tables := [[["a", ""]]] }] (by decide)

end PdfProcessor
